import Mathlib

/-!
# Asynchronous HTTP server: session and server state machines

A shallow embedding of `AsyncHttpServer.hpp`, `AsyncHttpServer.cpp` and `main.cpp`.

* A `std::string` is a Lean `String`; `size()` is its UTF-8 byte count.
* The session object is a record holding the buffer `data_`, the strong count of
  the `shared_ptr` control block, the asynchronous operations that were issued
  and have not completed yet, and the history of every operation issued.
* A completion handler runs as one step: the operation leaves `outstanding`,
  the body of the lambda runs, then the lambda (with its captured `self`) is
  destroyed.
* Writes into `data_` are index-checked: a write past the end gives `none`.
* What the machine decides (whether a start-up call or a thread construction
  throws, whether a worker ever leaves `io_context_.run()`) is a parameter.
-/

set_option linter.unusedVariables false

namespace AsyncHttp

/-! ## Strings and the buffer -/

/-- Capacity of the session buffer: `enum { max_length = 1024 }` (AsyncHttpServer.hpp:38). -/
def max_length : Nat := 1024

/-- Byte count of a string: `std::string::size()`. -/
def size (s : String) : Nat := s.utf8ByteSize

/-- Decimal rendering of an unsigned number: `std::to_string(std::size_t)`. -/
def to_string (n : Nat) : String := Nat.repr n

/-- The literal of AsyncHttpServer.cpp:44. -/
def response_body : String :=
  "<html><body><h1>Hello from Async C++ Server!</h1></body></html>"

/-- The header built at AsyncHttpServer.cpp:45-50. -/
def response_header : String :=
  "HTTP/1.1 200 OK\r\n" ++
  "Content-Type: text/html\r\n" ++
  "Content-Length: " ++ to_string (size response_body) ++ "\r\n" ++
  "Connection: keep-alive\r\n" ++
  "\r\n"

/-- The full response of AsyncHttpServer.cpp:52, `response_header + response_body`. -/
def response : String := response_header ++ response_body

/-- Element-wise copy into a buffer starting at index `i`, as `std::copy` does
with an output pointer; a store outside the buffer is `none`. -/
def copy : List Char → Nat → List Char → Option (List Char)
  | [], _, dst => some dst
  | c :: rest, i, dst => if i < dst.length then copy rest (i + 1) (dst.set i c) else none

/-! ## The session -/

/-- A `boost::system::error_code`: the value 0 means success. -/
structure error_code where
  value : Int
deriving DecidableEq, Repr

/-- The test `!ec`. -/
def error_code.ok (ec : error_code) : Bool := ec.value == 0

/-- An asynchronous operation issued on the session's socket. -/
inductive Op
  | read (capacity : Nat)
  | write (length : Nat)
deriving DecidableEq, Repr

/-- Recognises a write operation. -/
def Op.isWrite : Op → Bool
  | Op.write _ => true
  | Op.read _ => false

/-- Recognises a read operation. -/
def Op.isRead : Op → Bool
  | Op.read _ => true
  | Op.write _ => false

/-- The state of one `HttpSession` object together with its control block. -/
structure HttpSession where
  /-- The member `char data_[max_length]`. -/
  data_ : List Char
  /-- Number of `shared_ptr`s that own the session. -/
  use_count : Nat
  /-- Operations handed to the socket whose handlers have not run yet. -/
  outstanding : List Op
  /-- Every operation issued so far, oldest first. -/
  issued : List Op
deriving DecidableEq, Repr

/-- `HttpSession::create` (AsyncHttpServer.cpp:12-14): the returned pointer is
the only owner; `buf` is the content the uninitialised array happens to have. -/
def HttpSession.create (buf : List Char) : HttpSession :=
  { data_ := buf, use_count := 1, outstanding := [], issued := [] }

/-- One more owner: `shared_from_this()` or the copy of `self` in a capture. -/
def HttpSession.acquire (s : HttpSession) : HttpSession :=
  { s with use_count := s.use_count + 1 }

/-- One owner less: a `shared_ptr` is destroyed. -/
def HttpSession.release (s : HttpSession) : HttpSession :=
  { s with use_count := s.use_count - 1 }

/-- Hands an operation and its handler to the socket. -/
def HttpSession.issue (s : HttpSession) (op : Op) : HttpSession :=
  { s with outstanding := s.outstanding ++ [op], issued := s.issued ++ [op] }

/-- `HttpSession::do_read` (AsyncHttpServer.cpp:24-37): `self` is taken, the
lambda captures a copy of it, the read is issued, the local `self` dies. -/
def HttpSession.do_read (s : HttpSession) : HttpSession :=
  ((s.acquire.acquire).issue (Op.read max_length)).release

/-- `HttpSession::do_write` (AsyncHttpServer.cpp:60-72). -/
def HttpSession.do_write (s : HttpSession) (length : Nat) : HttpSession :=
  ((s.acquire.acquire).issue (Op.write length)).release

/-- `HttpSession::start` (AsyncHttpServer.cpp:20-22). -/
def HttpSession.start (s : HttpSession) : HttpSession := s.do_read

/-- `HttpSession::handle_request` (AsyncHttpServer.cpp:39-58). -/
def HttpSession.handle_request (s : HttpSession) (length : Nat) : Option HttpSession :=
  match copy response.toList 0 s.data_ with
  | none => none
  | some d => some ({ s with data_ := d }.do_write (size response))

/-- The lambda of `do_read` (AsyncHttpServer.cpp:30-36). -/
def HttpSession.read_handler (s : HttpSession) (ec : error_code) (length : Nat) :
    Option HttpSession :=
  if ec.ok then s.handle_request length else some s

/-- The lambda of `do_write` (AsyncHttpServer.cpp:64-71). -/
def HttpSession.write_handler (s : HttpSession) (ec : error_code) (length : Nat) :
    Option HttpSession :=
  if ec.ok then some s.do_read else some s

/-- A completion delivered by the io_context to a session; `incoming` is what
the socket has to deliver when a read completes. -/
inductive Completion
  | read (ec : error_code) (incoming : List Char)
  | write (ec : error_code) (bytes_transferred : Nat)
deriving DecidableEq, Repr

/-- Runs one completion: the operation must be outstanding; a read transfers
at most `max_length` bytes, the size of the buffer it was issued with, and
stores them at the start of `data_`, and its handler gets their number; then
the handler body runs and the handler, with its captured `self`, is destroyed. -/
def HttpSession.complete (s : HttpSession) : Completion → Option HttpSession
  | Completion.read ec incoming =>
    if Op.read max_length ∈ s.outstanding then
      let received := incoming.take max_length
      match copy received 0 s.data_ with
      | none => none
      | some d =>
        ({ s with data_ := d,
                  outstanding := s.outstanding.erase (Op.read max_length) }.read_handler
            ec received.length).map HttpSession.release
    else none
  | Completion.write ec bytes_transferred =>
    match s.outstanding.find? Op.isWrite with
    | none => none
    | some op =>
      ({ s with outstanding := s.outstanding.erase op }.write_handler
          ec bytes_transferred).map HttpSession.release

/-- The completions the library delivers. `async_read_some` on a TCP socket
with the non-empty buffer of `do_read` (AsyncHttpServer.cpp:29) never reports
success with zero bytes: a read that moves no byte is the peer's close and
comes with the error `eof` (the case named in the comment at
AsyncHttpServer.cpp:34). -/
def Deliverable : Completion → Prop
  | Completion.read ec incoming => ec.ok = true → incoming ≠ []
  | Completion.write _ _ => True

/-- The statement `HttpSession::create(std::move(socket))->start();`
(AsyncHttpServer.cpp:97): the temporary pointer dies at the end of it. -/
def HttpSession.accepted (buf : List Char) : HttpSession :=
  ((HttpSession.create buf).start).release

/-- States a session goes through after it was accepted. -/
inductive Reachable : HttpSession → Prop
  | accepted (buf : List Char) (h : buf.length = max_length) :
      Reachable (HttpSession.accepted buf)
  | step {s s' : HttpSession} (e : Completion) :
      Reachable s → s.complete e = some s' → Reachable s'

/-- The connection waits for a read completion. -/
def Reading (s : HttpSession) : Prop := s.outstanding = [Op.read max_length]

/-- The connection waits for a write completion. -/
def Writing (s : HttpSession) : Prop := ∃ n, s.outstanding = [Op.write n]

/-- The connection has no operation left and no owner. -/
def Closed (s : HttpSession) : Prop := s.outstanding = [] ∧ s.use_count = 0

/-- The bytes a pending write transmits: the first `length` bytes of `data_`. -/
def HttpSession.transmitting (s : HttpSession) : Option (List Char) :=
  match s.outstanding.find? Op.isWrite with
  | some (Op.write n) => some (s.data_.take n)
  | _ => none

/-! ## The server -/

/-- What the machine does for this process. For the start-up calls of the
constructor (AsyncHttpServer.cpp:82-86) and for the construction of the
`std::thread` of round `i` in `run` (AsyncHttpServer.cpp:111): `some msg` when
the call throws an exception whose `what()` is `msg`. For the worker of round
`i`: whether its `io_context_.run()` ever returns, so that a `join()` on it
returns. -/
structure Startup where
  make_address : String → Option String
  open_socket : Option String
  set_reuse_address : Option String
  bind : String → Nat → Option String
  listen : Option String
  thread_start : Int → Option String
  worker_exits : Int → Bool

/-- A `std::thread` of the pool: the round that started it, and whether it is
joinable (started, and not joined yet). -/
structure std_thread where
  index : Int
  joinable : Bool
deriving DecidableEq, Repr

/-- The state of the `HttpServer` object. -/
structure HttpServer where
  /-- The member `int thread_count_`. -/
  thread_count_ : Int
  /-- Accept operations handed to the acceptor whose handlers have not run yet. -/
  outstanding_accepts : Nat
  /-- Number of `async_accept` calls made so far. -/
  accepts_issued : Nat
  /-- Sessions created and started so far, oldest first. -/
  sessions : List HttpSession
  /-- The member `std::vector<std::thread> thread_pool_`. -/
  thread_pool_ : List std_thread
deriving DecidableEq, Repr

/-- `HttpServer::do_accept` (AsyncHttpServer.cpp:91-103): issues one accept. -/
def HttpServer.do_accept (srv : HttpServer) : HttpServer :=
  { srv with outstanding_accepts := srv.outstanding_accepts + 1,
             accepts_issued := srv.accepts_issued + 1 }

/-- The lambda of `do_accept` (AsyncHttpServer.cpp:94-102); `buf` is the
initial content of the new session's buffer. -/
def HttpServer.accept_handler (srv : HttpServer) (ec : error_code) (buf : List Char) :
    HttpServer :=
  let srv1 :=
    if ec.ok then { srv with sessions := srv.sessions ++ [HttpSession.accepted buf] }
    else srv
  srv1.do_accept

/-- Runs one accept completion: an accept must be outstanding. -/
def HttpServer.accept_complete (srv : HttpServer) (ec : error_code) (buf : List Char) :
    Option HttpServer :=
  if 0 < srv.outstanding_accepts then
    some ({ srv with outstanding_accepts := srv.outstanding_accepts - 1 }.accept_handler ec buf)
  else none

/-- Throws when the call failed. -/
def throw_if : Option String → Except String Unit
  | some msg => Except.error msg
  | none => Except.ok ()

/-- The constructor `HttpServer::HttpServer` (AsyncHttpServer.cpp:76-89). -/
def HttpServer.ctor (env : Startup) (address : String) (port : Nat) (threads : Int) :
    Except String HttpServer := do
  throw_if (env.make_address address)
  throw_if env.open_socket
  throw_if env.set_reuse_address
  throw_if (env.bind address port)
  throw_if env.listen
  pure (HttpServer.do_accept
    { thread_count_ := threads, outstanding_accepts := 0, accepts_issued := 0,
      sessions := [], thread_pool_ := [] })

/-- States the server goes through after a successful construction. -/
inductive ServerReachable : HttpServer → Prop
  | constructed (env : Startup) (address : String) (port : Nat) (threads : Int)
      (srv : HttpServer) :
      HttpServer.ctor env address port threads = Except.ok srv → ServerReachable srv
  | step {srv srv' : HttpServer} (ec : error_code) (buf : List Char) :
      ServerReachable srv → srv.accept_complete ec buf = some srv' → ServerReachable srv'

/-- What `run` and `main` do that can be observed: a line written, a thread
started, a `join()` that returned, a call of `std::terminate`. -/
inductive Event
  | stdout (line : String)
  | stderr (line : String)
  | spawn (i : Int)
  | join (i : Int)
  | terminate
deriving DecidableEq, Repr

/-- The loop `for (int i = 0; i < thread_count_; ++i)` of `HttpServer::run`
(AsyncHttpServer.cpp:110-114), from the round `i` on: each round constructs a
thread at the end of the pool; a construction that throws leaves the loop with
the pool as it is and the exception. -/
def spawn_loop (env : Startup) (thread_count_ : Int) (i : Int) (pool : List std_thread) :
    List std_thread × Option String :=
  if i < thread_count_ then
    match env.thread_start i with
    | some what => (pool, some what)
    | none =>
      spawn_loop env thread_count_ (i + 1) (pool ++ [{ index := i, joinable := true }])
  else (pool, none)
termination_by (thread_count_ - i).toNat
decreasing_by omega

/-- The loop `for (auto& t : thread_pool_) if (t.joinable()) t.join();`
(AsyncHttpServer.cpp:117-119): the pool after it, the joins that returned, and
the thread whose `join()` never returns, when there is one. -/
def join_loop (env : Startup) : List std_thread → List std_thread × List Event × Option Int
  | [] => ([], [], none)
  | t :: rest =>
    if t.joinable then
      if env.worker_exits t.index then
        let r := join_loop env rest
        ({ t with joinable := false } :: r.1, Event.join t.index :: r.2.1, r.2.2)
      else (t :: rest, [], some t.index)
    else
      let r := join_loop env rest
      (t :: r.1, r.2.1, r.2.2)

/-- How a call of `run` ends. -/
inductive RunEnd
  | returned
  | blocked (i : Int)
  | threw (what : String)
deriving DecidableEq, Repr

/-- The outcome of `run`. -/
structure RunResult where
  /-- The server object after the call. -/
  server : HttpServer
  /-- The banner, the threads started, the joins that returned. -/
  trace : List Event
  /-- Whether the call returned, hangs in a `join()`, or left by an exception. -/
  ending : RunEnd
deriving DecidableEq, Repr

/-- `HttpServer::run` (AsyncHttpServer.cpp:104-120). -/
def HttpServer.run (env : Startup) (srv : HttpServer) : RunResult :=
  let banner :=
    Event.stdout ("Server starting with " ++ toString srv.thread_count_ ++ " threads...")
  let spawned := spawn_loop env srv.thread_count_ 0 srv.thread_pool_
  let started := (spawned.1.drop srv.thread_pool_.length).map (fun t => Event.spawn t.index)
  match spawned.2 with
  | some what =>
    { server := { srv with thread_pool_ := spawned.1 },
      trace := banner :: started, ending := RunEnd.threw what }
  | none =>
    let joined := join_loop env spawned.1
    { server := { srv with thread_pool_ := joined.1 },
      trace := banner :: started ++ joined.2.1,
      ending := match joined.2.2 with
        | some i => RunEnd.blocked i
        | none => RunEnd.returned }

/-- Conversion of an `unsigned int` to `int`: reduction modulo 2^32 into the
signed range. -/
def to_int (h : Nat) : Int :=
  if h % 2 ^ 32 < 2 ^ 31 then ((h % 2 ^ 32 : Nat) : Int) else ((h % 2 ^ 32 : Nat) : Int) - 2 ^ 32

/-- The worker count of main.cpp:15-16:
`int threads = std::thread::hardware_concurrency(); if (threads == 0) threads = 1;`. -/
def worker_threads (hardware_concurrency : Nat) : Int :=
  let threads := to_int hardware_concurrency
  if threads == 0 then 1 else threads

/-- The outcome of `main`. -/
structure MainResult where
  /-- The `threads` argument given to the constructor. -/
  threads : Int
  /-- Whether `server.run()` was called. -/
  run_called : Bool
  /-- What was written and which threads were started and joined, in order. -/
  trace : List Event
  /-- The value `main` returns; `none` when `main` does not return, because
  `run` hangs in a `join()` or `std::terminate` was called. -/
  exit_status : Option Int
deriving DecidableEq, Repr

/-- `main` (main.cpp:9-28); `hardware_concurrency` is what
`std::thread::hardware_concurrency()` returns. An exception that leaves `run`
destroys `server` on its way to the handler, and the destructor of a joinable
`std::thread` in `thread_pool_` calls `std::terminate`. -/
def main (env : Startup) (hardware_concurrency : Nat) : MainResult :=
  let ip := "0.0.0.0"
  let port := 8080
  let threads := worker_threads hardware_concurrency
  let banner := Event.stdout ("Listening on " ++ ip ++ ":" ++ toString port)
  match HttpServer.ctor env ip port threads with
  | Except.ok server =>
    let r := server.run env
    match r.ending with
    | RunEnd.returned =>
      { threads := threads, run_called := true,
        trace := banner :: r.trace, exit_status := some 0 }
    | RunEnd.blocked _ =>
      { threads := threads, run_called := true,
        trace := banner :: r.trace, exit_status := none }
    | RunEnd.threw what =>
      if r.server.thread_pool_.any (fun t => t.joinable) then
        { threads := threads, run_called := true,
          trace := banner :: r.trace ++ [Event.terminate], exit_status := none }
      else
        { threads := threads, run_called := true,
          trace := banner :: r.trace ++ [Event.stderr ("Exception: " ++ what)],
          exit_status := some 0 }
  | Except.error what =>
    { threads := threads, run_called := false,
      trace := [banner, Event.stderr ("Exception: " ++ what)], exit_status := some 0 }

/-! ## The receiver's reading of a response -/

/-- Removes `pat` from the front of a list that starts with it. -/
def strip_front : List Char → List Char → Option (List Char)
  | [], l => some l
  | _ :: _, [] => none
  | p :: ps, c :: cs => if p = c then strip_front ps cs else none

/-- Splits at the first occurrence of `pat`: what precedes it and what follows it. -/
def split_first (pat : List Char) : List Char → Option (List Char × List Char)
  | [] => (strip_front pat []).map (fun r => ([], r))
  | c :: cs =>
    match strip_front pat (c :: cs) with
    | some r => some ([], r)
    | none => (split_first pat cs).map (fun p => (c :: p.1, p.2))

/-- The lines of a header block, each ended by CR LF. -/
def header_lines : Nat → List Char → List (List Char)
  | 0, _ => []
  | fuel + 1, l =>
    match split_first "\r\n".toList l with
    | some (line, rest) => line :: header_lines fuel rest
    | none => if l = [] then [] else [l]

/-- The number written in leading decimal digits; `none` without a digit. -/
def parse_decimal (l : List Char) : Option Nat :=
  let digits := l.takeWhile Char.isDigit
  if digits = [] then none
  else some (digits.foldl (fun acc c => 10 * acc + (c.toNat - 48)) 0)

/-- The number after `Content-Length: ` in a header block. -/
def content_length (header : List Char) : Option Nat :=
  (split_first "Content-Length: ".toList header).bind (fun p => parse_decimal p.2)

/-- CR LF CR LF: the end of the last header line followed by the blank line. -/
def blank_line : List Char := "\r\n\r\n".toList

/-- A buffer of the declared capacity filled with spaces. -/
def spaces_buffer : List Char := List.replicate max_length ' '

/-- A session as `create` returns it, on a buffer filled with spaces. -/
def fresh_session : HttpSession := HttpSession.create spaces_buffer

/-- A session right after it was accepted and started. -/
def started_session : HttpSession := HttpSession.accepted spaces_buffer

/-- A request as a client sends it. -/
def sample_request : List Char := "GET / HTTP/1.1\r\n\r\n".toList

/-- The started session after its first read completed with `sample_request`. -/
def writing_session : HttpSession :=
  (started_session.complete (Completion.read ⟨0⟩ sample_request)).getD started_session

/-- A machine on which every start-up call and every thread construction
succeeds, and on which no worker ever leaves `io_context_.run()`. -/
def quiet_startup : Startup :=
  { make_address := fun _ => none, open_socket := none, set_reuse_address := none,
    bind := fun _ _ => none, listen := none,
    thread_start := fun _ => none, worker_exits := fun _ => false }

/-- A machine like `quiet_startup` on which every worker returns from
`io_context_.run()` (the io_context was stopped). -/
def stopping_startup : Startup :=
  { quiet_startup with worker_exits := fun _ => true }

/-- A machine like `quiet_startup` that refuses a third thread. -/
def thread_limit_startup : Startup :=
  { quiet_startup with
    thread_start := fun i =>
      if i < 2 then none else some "Resource temporarily unavailable" }

/-- A machine on which the port is taken: `bind` throws. -/
def address_in_use : Startup :=
  { quiet_startup with bind := fun _ _ => some "bind: Address already in use" }

/-- The server as the constructor leaves it with four threads requested. -/
def listening_server : HttpServer :=
  HttpServer.do_accept
    { thread_count_ := 4, outstanding_accepts := 0, accepts_issued := 0,
      sessions := [], thread_pool_ := [] }

/-- The invariant of constructed servers: one accept is outstanding and no
worker thread was started yet. -/
def ServerInv (srv : HttpServer) : Prop :=
  srv.outstanding_accepts = 1 ∧ srv.thread_pool_ = []

/-- The invariant of accepted sessions: the buffer keeps its capacity, every
outstanding operation accounts for one owner and there is no other owner, and
at most one operation is outstanding; a pending write covers the response. -/
def Inv (s : HttpSession) : Prop :=
  s.data_.length = max_length ∧ s.use_count = s.outstanding.length ∧
  (s.outstanding = [] ∨ s.outstanding = [Op.read max_length] ∨
    (s.outstanding = [Op.write 151] ∧ s.data_.take 151 = response.toList))

/-! ## Basic facts -/

set_option maxRecDepth 100000 in
theorem size_response_body : size response_body = 63 := by decide

set_option maxRecDepth 100000 in
theorem size_response_header : size response_header = 88 := by decide

set_option maxRecDepth 100000 in
theorem size_response : size response = 151 := by decide

set_option maxRecDepth 100000 in
theorem length_response : response.toList.length = 151 := by decide

theorem copy_eq (src : List Char) : ∀ (i : Nat) (dst : List Char),
    i + src.length ≤ dst.length →
    copy src i dst = some (dst.take i ++ src ++ dst.drop (i + src.length)) := by
  induction src with
  | nil => intro i dst h; simp [copy]
  | cons c rest ih =>
    intro i dst h
    simp only [List.length_cons] at h
    have hi : i < dst.length := by omega
    rw [copy, if_pos hi, ih (i + 1) (dst.set i c) (by simp; omega)]
    congr 1
    rw [List.drop_set_of_lt c dst (by omega : i < i + 1 + rest.length)]
    rw [List.set_eq_take_append_cons_drop, if_pos hi]
    have h1 : List.take (i + 1) (List.take i dst ++ c :: List.drop (i + 1) dst)
        = List.take i dst ++ [c] := by
      rw [List.take_append_eq_append_take]
      simp [List.length_take, Nat.min_eq_left (le_of_lt hi)]
    rw [h1]
    simp [List.length_cons, Nat.add_assoc, Nat.add_comm 1]

theorem copy_none (src : List Char) : ∀ (i : Nat) (dst : List Char),
    dst.length < i + src.length → src ≠ [] → copy src i dst = none := by
  induction src with
  | nil => intro i dst h hne; exact absurd rfl hne
  | cons c rest ih =>
    intro i dst h _
    simp only [List.length_cons] at h
    rw [copy]
    split
    · rename_i hi
      cases rest with
      | nil => simp at h; omega
      | cons d r => exact ih (i + 1) (dst.set i c) (by simp at h ⊢; omega) (by simp)
    · rfl

theorem copy_zero (src dst : List Char) (h : src.length ≤ dst.length) :
    copy src 0 dst = some (src ++ dst.drop src.length) := by
  rw [copy_eq src 0 dst (by omega)]; simp

theorem copy_zero_length (src dst : List Char) (h : src.length ≤ dst.length) :
    (src ++ dst.drop src.length).length = dst.length := by
  simp; omega

/-- What `handle_request` returns on a buffer of the declared capacity. -/
theorem handle_request_eq (s : HttpSession) (length : Nat)
    (h : s.data_.length = max_length) :
    s.handle_request length = some
      { data_ := response.toList ++ s.data_.drop 151,
        use_count := s.use_count + 1,
        outstanding := s.outstanding ++ [Op.write 151],
        issued := s.issued ++ [Op.write 151] } := by
  have hle : response.toList.length ≤ s.data_.length := by
    rw [length_response, h]; decide
  unfold HttpSession.handle_request
  rw [copy_zero _ _ hle, length_response, size_response]
  simp [HttpSession.do_write, HttpSession.acquire, HttpSession.issue, HttpSession.release]

theorem take_response_append (l : List Char) :
    (response.toList ++ l).take 151 = response.toList := by
  rw [← length_response, List.take_left]

theorem drop_response_append (l : List Char) :
    (response.toList ++ l).drop 151 = l := by
  rw [← length_response, List.drop_left]

/-! ## Steps of the session -/

theorem complete_read (s : HttpSession) (ec : error_code) (incoming : List Char)
    (hs : s.outstanding = [Op.read max_length]) (hd : s.data_.length = max_length) :
    s.complete (Completion.read ec incoming) =
      if ec.ok then some
        { data_ := response.toList ++
            (incoming.take max_length
              ++ s.data_.drop (incoming.take max_length).length).drop 151,
          use_count := s.use_count, outstanding := [Op.write 151],
          issued := s.issued ++ [Op.write 151] }
      else some
        { data_ := incoming.take max_length
            ++ s.data_.drop (incoming.take max_length).length,
          use_count := s.use_count - 1, outstanding := [], issued := s.issued } := by
  have hle : (incoming.take max_length).length ≤ s.data_.length := by
    rw [hd, List.length_take]; exact Nat.min_le_left _ _
  have hlen := copy_zero_length (incoming.take max_length) s.data_ hle
  unfold HttpSession.complete
  simp only [hs, List.mem_singleton, if_true, copy_zero _ _ hle]
  unfold HttpSession.read_handler
  split
  · rw [handle_request_eq _ _ (hlen.trans hd)]
    simp [HttpSession.release]
  · simp [HttpSession.release]

theorem complete_write (s : HttpSession) (ec : error_code) (n k : Nat)
    (hs : s.outstanding = [Op.write k]) :
    s.complete (Completion.write ec n) =
      if ec.ok then some
        { data_ := s.data_, use_count := s.use_count,
          outstanding := [Op.read max_length],
          issued := s.issued ++ [Op.read max_length] }
      else some
        { data_ := s.data_, use_count := s.use_count - 1, outstanding := [],
          issued := s.issued } := by
  unfold HttpSession.complete
  simp only [hs, List.find?, Op.isWrite]
  unfold HttpSession.write_handler
  split
  · simp [HttpSession.release, HttpSession.do_read, HttpSession.acquire, HttpSession.issue]
  · simp [HttpSession.release]

theorem complete_read_not_outstanding (s : HttpSession) (ec : error_code)
    (incoming : List Char) (hs : Op.read max_length ∉ s.outstanding) :
    s.complete (Completion.read ec incoming) = none := by
  unfold HttpSession.complete
  simp [hs]

theorem complete_write_not_outstanding (s : HttpSession) (ec : error_code) (n : Nat)
    (hs : s.outstanding.find? Op.isWrite = none) :
    s.complete (Completion.write ec n) = none := by
  unfold HttpSession.complete
  simp [hs]

theorem accepted_eq (buf : List Char) :
    HttpSession.accepted buf =
      { data_ := buf, use_count := 1, outstanding := [Op.read max_length],
        issued := [Op.read max_length] } := by
  simp [HttpSession.accepted, HttpSession.start, HttpSession.create, HttpSession.do_read,
    HttpSession.acquire, HttpSession.issue, HttpSession.release]

theorem inv_accepted (buf : List Char) (h : buf.length = max_length) :
    Inv (HttpSession.accepted buf) := by
  rw [accepted_eq]
  exact ⟨h, rfl, Or.inr (Or.inl rfl)⟩

theorem inv_step (s s' : HttpSession) (e : Completion) (hinv : Inv s)
    (hstep : s.complete e = some s') : Inv s' := by
  obtain ⟨hd, hu, hout⟩ := hinv
  rcases hout with h0 | hr | ⟨hw, htake⟩
  · cases e with
    | read ec received =>
      rw [complete_read_not_outstanding s ec received (by simp [h0])] at hstep
      exact absurd hstep (by simp)
    | write ec n =>
      rw [complete_write_not_outstanding s ec n (by simp [h0])] at hstep
      exact absurd hstep (by simp)
  · cases e with
    | read ec incoming =>
      rw [complete_read s ec incoming hr hd] at hstep
      have hle : (incoming.take max_length).length ≤ s.data_.length := by
        rw [hd, List.length_take]; exact Nat.min_le_left _ _
      have hstored := copy_zero_length (incoming.take max_length) s.data_ hle
      rw [hr] at hu
      split at hstep
      · injection hstep with hstep
        subst hstep
        refine ⟨?_, by simp [hu], Or.inr (Or.inr ⟨rfl, take_response_append _⟩)⟩
        rw [List.length_append, List.length_drop, length_response, hstored, hd]
        decide
      · injection hstep with hstep
        subst hstep
        exact ⟨by rw [hstored, hd], by simp [hu], Or.inl rfl⟩
    | write ec n =>
      rw [complete_write_not_outstanding s ec n (by simp [hr, Op.isWrite])] at hstep
      exact absurd hstep (by simp)
  · cases e with
    | read ec received =>
      rw [complete_read_not_outstanding s ec received (by simp [hw])] at hstep
      exact absurd hstep (by simp)
    | write ec n =>
      rw [complete_write s ec n 151 hw] at hstep
      rw [hw] at hu
      split at hstep
      · injection hstep with hstep
        subst hstep
        exact ⟨hd, by simp [hu], Or.inr (Or.inl rfl)⟩
      · injection hstep with hstep
        subst hstep
        exact ⟨hd, by simp [hu], Or.inl rfl⟩

theorem reachable_inv {s : HttpSession} (h : Reachable s) : Inv s := by
  induction h with
  | accepted buf hb => exact inv_accepted buf hb
  | step e _ hstep ih => exact inv_step _ _ e ih hstep

/-! ## The response -/

set_option maxRecDepth 100000 in
theorem response_split :
    ∃ header, split_first blank_line response.toList = some (header, response_body.toList) ∧
      header ++ blank_line = response_header.toList ∧
      content_length header = some 63 ∧
      header_lines 8 header = ["HTTP/1.1 200 OK".toList, "Content-Type: text/html".toList,
        "Content-Length: 63".toList, "Connection: keep-alive".toList] :=
  ⟨("HTTP/1.1 200 OK\r\nContent-Type: text/html\r\nContent-Length: 63\r\n" ++
      "Connection: keep-alive").toList, by decide⟩

set_option maxRecDepth 100000 in
theorem response_first_line :
    ∃ rest, split_first "\r\n".toList response.toList = some ("HTTP/1.1 200 OK".toList, rest) :=
  ⟨("Content-Type: text/html\r\nContent-Length: 63\r\nConnection: keep-alive\r\n\r\n" ++
      response_body).toList, by decide⟩

set_option maxRecDepth 100000 in
theorem response_body_length : response_body.toList.length = 63 := by decide

set_option maxRecDepth 100000 in
theorem response_toList : response.toList = response_header.toList ++ response_body.toList := by
  decide

theorem spaces_buffer_length : spaces_buffer.length = max_length := by
  simp [spaces_buffer]

theorem fresh_session_length : fresh_session.data_.length = max_length := by
  simp [fresh_session, HttpSession.create, spaces_buffer]

theorem started_session_reachable : Reachable started_session :=
  Reachable.accepted spaces_buffer spaces_buffer_length

theorem started_session_reading : Reading started_session := by
  simp [started_session, accepted_eq, Reading]

/-- C1: on a buffer of the declared capacity and for every received length,
`handle_request` issues a write of 151 bytes whose content is the header, the
CR LF CR LF that ends it, and the body; the number after `Content-Length: ` in
the header is the byte length of the body, so taking that many bytes at the
body position gives the whole body and leaves nothing. -/
theorem handle_request_content_length (s : HttpSession) (length : Nat)
    (h : s.data_.length = max_length) :
    ∃ s' header body n,
      s.handle_request length = some s' ∧
      s'.issued = s.issued ++ [Op.write 151] ∧
      s'.data_.take 151 = header ++ blank_line ++ body ∧
      split_first blank_line (s'.data_.take 151) = some (header, body) ∧
      header ++ blank_line = response_header.toList ∧
      body = response_body.toList ∧
      content_length header = some n ∧
      n = size response_body ∧ n = body.length ∧
      body.take n = body ∧ body.drop n = [] := by
  obtain ⟨header, hsplit, hhead, hlen, _⟩ := response_split
  refine ⟨_, header, response_body.toList, 63, handle_request_eq s length h, rfl, ?_, ?_,
    hhead, rfl, hlen, size_response_body.symm, response_body_length.symm, ?_, ?_⟩
  · rw [take_response_append, hhead, response_toList]
  · rw [take_response_append, hsplit]
  · rw [← response_body_length, List.take_length]
  · rw [← response_body_length, List.drop_length]

theorem handle_request_content_length_witness :
    fresh_session.data_.length = max_length ∧
    ∃ s' header body n,
      fresh_session.handle_request 18 = some s' ∧
      s'.issued = fresh_session.issued ++ [Op.write 151] ∧
      s'.data_.take 151 = header ++ blank_line ++ body ∧
      split_first blank_line (s'.data_.take 151) = some (header, body) ∧
      header ++ blank_line = response_header.toList ∧
      body = response_body.toList ∧
      content_length header = some n ∧
      n = size response_body ∧ n = body.length ∧
      body.take n = body ∧ body.drop n = [] :=
  ⟨fresh_session_length, handle_request_content_length fresh_session 18 fresh_session_length⟩

/-- C2: on a buffer of the declared capacity, whatever it holds and whatever
the received length, `handle_request` sends the same 151 bytes: the first line
is `HTTP/1.1 200 OK`, the header lines are `Content-Type: text/html`,
`Content-Length: 63` and `Connection: keep-alive`, and the body is the 63-byte
HTML string; two calls on any two sessions with any two lengths send the same
bytes. -/
theorem handle_request_fixed_response (s : HttpSession) (length : Nat)
    (h : s.data_.length = max_length) :
    ∃ s', s.handle_request length = some s' ∧
      s'.issued = s.issued ++ [Op.write 151] ∧
      s'.data_.take 151 = response.toList ∧
      (∀ (t : HttpSession) (m : Nat), t.data_.length = max_length →
        ∃ t', t.handle_request m = some t' ∧ t'.issued = t.issued ++ [Op.write 151] ∧
          t'.data_.take 151 = s'.data_.take 151) ∧
      (∃ rest, split_first "\r\n".toList (s'.data_.take 151)
          = some ("HTTP/1.1 200 OK".toList, rest)) ∧
      ∃ header body, split_first blank_line (s'.data_.take 151) = some (header, body) ∧
        "Content-Type: text/html".toList ∈ header_lines 8 header ∧
        "Content-Length: 63".toList ∈ header_lines 8 header ∧
        "Connection: keep-alive".toList ∈ header_lines 8 header ∧
        body = "<html><body><h1>Hello from Async C++ Server!</h1></body></html>".toList ∧
        body.length = 63 ∧ size response_body = 63 := by
  obtain ⟨header, hsplit, _, _, hlines⟩ := response_split
  refine ⟨_, handle_request_eq s length h, rfl, take_response_append _, ?_, ?_, header,
    response_body.toList, ?_, ?_, ?_, ?_, rfl, response_body_length, size_response_body⟩
  · intro t m ht
    exact ⟨_, handle_request_eq t m ht, rfl, by
      rw [take_response_append, take_response_append]⟩
  · rw [take_response_append]; exact response_first_line
  · rw [take_response_append]; exact hsplit
  · rw [hlines]; simp
  · rw [hlines]; simp
  · rw [hlines]; simp

theorem handle_request_fixed_response_witness :
    started_session.data_.length = max_length ∧
    ∃ s', started_session.handle_request 0 = some s' ∧
      s'.issued = started_session.issued ++ [Op.write 151] ∧
      s'.data_.take 151 = response.toList ∧
      (∀ (t : HttpSession) (m : Nat), t.data_.length = max_length →
        ∃ t', t.handle_request m = some t' ∧ t'.issued = t.issued ++ [Op.write 151] ∧
          t'.data_.take 151 = s'.data_.take 151) ∧
      (∃ rest, split_first "\r\n".toList (s'.data_.take 151)
          = some ("HTTP/1.1 200 OK".toList, rest)) ∧
      ∃ header body, split_first blank_line (s'.data_.take 151) = some (header, body) ∧
        "Content-Type: text/html".toList ∈ header_lines 8 header ∧
        "Content-Length: 63".toList ∈ header_lines 8 header ∧
        "Connection: keep-alive".toList ∈ header_lines 8 header ∧
        body = "<html><body><h1>Hello from Async C++ Server!</h1></body></html>".toList ∧
        body.length = 63 ∧ size response_body = 63 :=
  ⟨(reachable_inv started_session_reachable).1,
   handle_request_fixed_response started_session 0
     (reachable_inv started_session_reachable).1⟩

/-- C10: on a buffer of the declared capacity and for every received length,
the response has 151 bytes, 88 of header and 63 of body, at most
`max_length = 1024`; the index-checked copy into `data_` succeeds, leaves the
capacity and the bytes from index 151 on as they were, and the length given to
`do_write` is at most the capacity. -/
theorem handle_request_within_buffer (s : HttpSession) (length : Nat)
    (h : s.data_.length = max_length) :
    ∃ s', s.handle_request length = some s' ∧
      copy response.toList 0 s.data_ = some s'.data_ ∧
      size response = 151 ∧ size response_header = 88 ∧ size response_body = 63 ∧
      response.toList.length = 151 ∧
      s'.data_.length = max_length ∧
      s'.data_.take 151 = response.toList ∧
      s'.data_.drop 151 = s.data_.drop 151 ∧
      s'.issued = s.issued ++ [Op.write (size response)] ∧
      size response ≤ max_length := by
  have hle : response.toList.length ≤ s.data_.length := by
    rw [length_response, h]; decide
  refine ⟨_, handle_request_eq s length h, ?_, size_response, size_response_header,
    size_response_body, length_response, ?_, take_response_append _,
    drop_response_append _, by rw [size_response], by rw [size_response]; decide⟩
  · rw [copy_zero _ _ hle, length_response]
  · have := copy_zero_length _ _ hle
    rw [length_response] at this
    rw [this, h]

theorem handle_request_within_buffer_witness :
    spaces_buffer.length = max_length ∧
    ∃ s', (HttpSession.create spaces_buffer).handle_request 1024 = some s' ∧
      copy response.toList 0 (HttpSession.create spaces_buffer).data_ = some s'.data_ ∧
      size response = 151 ∧ size response_header = 88 ∧ size response_body = 63 ∧
      response.toList.length = 151 ∧
      s'.data_.length = max_length ∧
      s'.data_.take 151 = response.toList ∧
      s'.data_.drop 151 = (HttpSession.create spaces_buffer).data_.drop 151 ∧
      s'.issued = (HttpSession.create spaces_buffer).issued ++ [Op.write (size response)] ∧
      size response ≤ max_length :=
  ⟨spaces_buffer_length,
   handle_request_within_buffer (HttpSession.create spaces_buffer) 1024 spaces_buffer_length⟩

/-! ## Read and write completions -/

theorem reading_inv {s : HttpSession} (h : Reachable s) (hr : Reading s) :
    s.data_.length = max_length ∧ s.use_count = 1 := by
  obtain ⟨hd, hu, _⟩ := reachable_inv h
  rw [hr] at hu
  exact ⟨hd, hu⟩

theorem writing_inv {s : HttpSession} (h : Reachable s) (hw : Writing s) :
    s.outstanding = [Op.write 151] ∧ s.data_.take 151 = response.toList ∧
      s.use_count = 1 := by
  obtain ⟨_, hu, hout⟩ := reachable_inv h
  obtain ⟨n, hn⟩ := hw
  rcases hout with h0 | hr | ⟨h1, h2⟩
  · rw [h0] at hn; exact absurd hn (by simp)
  · rw [hr] at hn; exact absurd hn (by simp)
  · rw [h1] at hu; exact ⟨h1, h2, hu⟩

theorem closed_no_completion (s : HttpSession) (h : s.outstanding = []) (e : Completion) :
    s.complete e = none := by
  cases e with
  | read ec received => exact complete_read_not_outstanding s ec received (by simp [h])
  | write ec n => exact complete_write_not_outstanding s ec n (by simp [h])

theorem take_length_pos (incoming : List Char) (h : incoming ≠ []) :
    0 < (incoming.take max_length).length := by
  have hpos : 0 < incoming.length := List.length_pos.mpr h
  rw [List.length_take]
  exact lt_min (by decide) hpos

/-- C3: for a session in Reading and every read completion (ec, length) the
library delivers: when there is no error and the length is positive, the
request is processed and exactly one write is issued; when there is an error
or the length is zero, the session becomes Closed, no write and no further
read is issued, no completion is enabled any more, and the last owner is
dropped. -/
theorem read_completion (s : HttpSession) (ec : error_code) (incoming : List Char)
    (h : Reachable s) (hr : Reading s)
    (hdel : Deliverable (Completion.read ec incoming)) :
    ∃ s', s.complete (Completion.read ec incoming) = some s' ∧
      (ec.ok = true ∧ 0 < (incoming.take max_length).length →
        Writing s' ∧ s'.outstanding = [Op.write 151] ∧
        s'.issued = s.issued ++ [Op.write 151] ∧
        s'.data_.take 151 = response.toList ∧ s'.use_count = 1) ∧
      (ec.ok = false ∨ (incoming.take max_length).length = 0 →
        Closed s' ∧ s'.issued = s.issued ∧ s.use_count = 1 ∧ s'.use_count = 0 ∧
        ∀ e, s'.complete e = none) := by
  obtain ⟨hd, hu⟩ := reading_inv h hr
  have hc := complete_read s ec incoming hr hd
  cases hok : ec.ok with
  | true =>
    rw [hok, if_pos rfl] at hc
    have hpos := take_length_pos incoming (hdel hok)
    refine ⟨_, hc, fun _ => ⟨⟨151, rfl⟩, rfl, rfl, take_response_append _, hu⟩, ?_⟩
    rintro (hf | h0)
    · exact absurd hf (by simp)
    · omega
  | false =>
    rw [hok, if_neg Bool.false_ne_true] at hc
    refine ⟨_, hc, ?_, fun _ => ⟨⟨rfl, by simp [hu]⟩, rfl, hu, by simp [hu], ?_⟩⟩
    · intro hf; exact absurd hf.1 (by simp)
    · intro e; exact closed_no_completion _ rfl e

theorem read_completion_witness :
    Reachable started_session ∧ Reading started_session ∧
    Deliverable (Completion.read ⟨0⟩ sample_request) ∧
    ∃ s', started_session.complete (Completion.read ⟨0⟩ sample_request) = some s' ∧
      ((⟨0⟩ : error_code).ok = true ∧ 0 < (sample_request.take max_length).length →
        Writing s' ∧ s'.outstanding = [Op.write 151] ∧
        s'.issued = started_session.issued ++ [Op.write 151] ∧
        s'.data_.take 151 = response.toList ∧ s'.use_count = 1) ∧
      ((⟨0⟩ : error_code).ok = false ∨ (sample_request.take max_length).length = 0 →
        Closed s' ∧ s'.issued = started_session.issued ∧ started_session.use_count = 1 ∧
        s'.use_count = 0 ∧ ∀ e, s'.complete e = none) :=
  ⟨started_session_reachable, started_session_reading, fun _ => by decide,
   read_completion started_session ⟨0⟩ sample_request
     started_session_reachable started_session_reading (fun _ => by decide)⟩

/-- A peer close, delivered as the error `eof` (value 2) with zero bytes, on a
freshly started session: nothing is issued and the session is closed. -/
theorem peer_close_closes :
    Deliverable (Completion.read ⟨2⟩ []) ∧
    ∃ s', started_session.complete (Completion.read ⟨2⟩ []) = some s' ∧
      Closed s' ∧ s'.issued = started_session.issued := by
  obtain ⟨hd, hu⟩ := reading_inv started_session_reachable started_session_reading
  have hc := complete_read started_session ⟨2⟩ [] started_session_reading hd
  rw [if_neg (show ¬ ((⟨2⟩ : error_code).ok = true) by decide)] at hc
  refine ⟨fun hok => absurd hok (by decide), _, hc, ⟨rfl, ?_⟩, rfl⟩
  show started_session.use_count - 1 = 0
  rw [hu]

/-- C4: for a session in Writing and every write completion: without error
exactly one read is issued and the session is in Reading, and the next read
that completes without error makes it transmit the same bytes as the write
before; with an error the session becomes Closed, nothing is issued and no
completion is enabled any more. -/
theorem write_completion (s : HttpSession) (ec : error_code) (n : Nat)
    (h : Reachable s) (hw : Writing s) :
    ∃ s1, s.complete (Completion.write ec n) = some s1 ∧
      (ec.ok = true →
        Reading s1 ∧ s1.issued = s.issued ++ [Op.read max_length] ∧
        ∀ (ec2 : error_code) (incoming : List Char),
          ec2.ok = true →
          ∃ s2, s1.complete (Completion.read ec2 incoming) = some s2 ∧ Writing s2 ∧
            s2.issued = s1.issued ++ [Op.write 151] ∧
            s2.transmitting = s.transmitting ∧ s.transmitting = some response.toList) ∧
      (ec.ok = false →
        Closed s1 ∧ s1.issued = s.issued ∧ ∀ e, s1.complete e = none) := by
  obtain ⟨hout, htake, hu⟩ := writing_inv h hw
  have hd := (reachable_inv h).1
  have htr : s.transmitting = some response.toList := by
    simp [HttpSession.transmitting, hout, Op.isWrite, htake]
  have hc := complete_write s ec n 151 hout
  cases hok : ec.ok with
  | true =>
    rw [hok, if_pos rfl] at hc
    refine ⟨_, hc, fun _ => ⟨rfl, rfl, ?_⟩, ?_⟩
    · intro ec2 incoming hok2
      have hc2 := complete_read
        { data_ := s.data_, use_count := s.use_count, outstanding := [Op.read max_length],
          issued := s.issued ++ [Op.read max_length] } ec2 incoming rfl hd
      rw [hok2, if_pos rfl] at hc2
      refine ⟨_, hc2, ⟨151, rfl⟩, rfl, ?_, htr⟩
      rw [htr]
      simp only [HttpSession.transmitting, List.find?, Op.isWrite, take_response_append]
    · intro hf; exact absurd hf (by simp)
  | false =>
    rw [hok, if_neg Bool.false_ne_true] at hc
    refine ⟨_, hc, ?_, fun _ => ⟨⟨rfl, by simp [hu]⟩, rfl, ?_⟩⟩
    · intro hf; exact absurd hf (by simp)
    · intro e; exact closed_no_completion _ rfl e

theorem writing_session_step :
    started_session.complete (Completion.read ⟨0⟩ sample_request) = some writing_session := by
  obtain ⟨hd, _⟩ := reading_inv started_session_reachable started_session_reading
  have hc := complete_read started_session ⟨0⟩ sample_request started_session_reading hd
  rw [if_pos (show (⟨0⟩ : error_code).ok = true from rfl)] at hc
  unfold writing_session
  rw [hc]
  rfl

theorem writing_session_reachable : Reachable writing_session :=
  Reachable.step _ started_session_reachable writing_session_step

theorem writing_session_writing : Writing writing_session := by
  obtain ⟨hd, _⟩ := reading_inv started_session_reachable started_session_reading
  have hc := complete_read started_session ⟨0⟩ sample_request started_session_reading hd
  rw [if_pos (show (⟨0⟩ : error_code).ok = true from rfl), writing_session_step] at hc
  injection hc with hc
  rw [hc]
  exact ⟨151, rfl⟩

theorem write_completion_witness :
    Reachable writing_session ∧ Writing writing_session ∧
    ∃ s1, writing_session.complete (Completion.write ⟨0⟩ 151) = some s1 ∧
      ((⟨0⟩ : error_code).ok = true →
        Reading s1 ∧ s1.issued = writing_session.issued ++ [Op.read max_length] ∧
        ∀ (ec2 : error_code) (incoming : List Char),
          ec2.ok = true →
          ∃ s2, s1.complete (Completion.read ec2 incoming) = some s2 ∧ Writing s2 ∧
            s2.issued = s1.issued ++ [Op.write 151] ∧
            s2.transmitting = writing_session.transmitting ∧
            writing_session.transmitting = some response.toList) ∧
      ((⟨0⟩ : error_code).ok = false →
        Closed s1 ∧ s1.issued = writing_session.issued ∧ ∀ e, s1.complete e = none) :=
  ⟨writing_session_reachable, writing_session_writing,
   write_completion writing_session ⟨0⟩ 151 writing_session_reachable writing_session_writing⟩

/-! ## One operation at a time, one owner per operation -/

/-- The two shapes of a step from a state that satisfies the invariant. -/
theorem step_cases (s s' : HttpSession) (e : Completion) (hinv : Inv s)
    (hstep : s.complete e = some s') :
    (∃ ec incoming, e = Completion.read ec incoming ∧
        s.outstanding = [Op.read max_length] ∧
        ((ec.ok = true ∧ s'.outstanding = [Op.write 151] ∧
            s'.issued = s.issued ++ [Op.write 151] ∧ s'.use_count = s.use_count) ∨
         (ec.ok = false ∧ s'.outstanding = [] ∧ s'.issued = s.issued ∧
            s'.use_count = s.use_count - 1))) ∨
    (∃ ec n, e = Completion.write ec n ∧
        s.outstanding = [Op.write 151] ∧
        ((ec.ok = true ∧ s'.outstanding = [Op.read max_length] ∧
            s'.issued = s.issued ++ [Op.read max_length] ∧ s'.use_count = s.use_count) ∨
         (ec.ok = false ∧ s'.outstanding = [] ∧ s'.issued = s.issued ∧
            s'.use_count = s.use_count - 1))) := by
  obtain ⟨hd, hu, hout⟩ := hinv
  rcases hout with h0 | hr | ⟨hw, _⟩
  · rw [closed_no_completion s h0 e] at hstep
    exact absurd hstep (by simp)
  · cases e with
    | read ec incoming =>
      rw [complete_read s ec incoming hr hd] at hstep
      refine Or.inl ⟨ec, incoming, rfl, hr, ?_⟩
      cases hok : ec.ok with
      | true =>
        rw [hok, if_pos rfl] at hstep
        injection hstep with hstep
        subst hstep
        exact Or.inl ⟨rfl, rfl, rfl, rfl⟩
      | false =>
        rw [hok, if_neg Bool.false_ne_true] at hstep
        injection hstep with hstep
        subst hstep
        exact Or.inr ⟨rfl, rfl, rfl, rfl⟩
    | write ec n =>
      rw [complete_write_not_outstanding s ec n (by simp [hr, Op.isWrite])] at hstep
      exact absurd hstep (by simp)
  · cases e with
    | read ec received =>
      rw [complete_read_not_outstanding s ec received (by simp [hw])] at hstep
      exact absurd hstep (by simp)
    | write ec n =>
      rw [complete_write s ec n 151 hw] at hstep
      refine Or.inr ⟨ec, n, rfl, hw, ?_⟩
      cases hok : ec.ok with
      | true =>
        rw [hok, if_pos rfl] at hstep
        injection hstep with hstep
        subst hstep
        exact Or.inl ⟨rfl, rfl, rfl, rfl⟩
      | false =>
        rw [hok, if_neg Bool.false_ne_true] at hstep
        injection hstep with hstep
        subst hstep
        exact Or.inr ⟨rfl, rfl, rfl, rfl⟩

theorem append_singleton_ne (l : List Op) (op : Op) : l ++ [op] ≠ l := by
  intro h
  have := congrArg List.length h
  simp at this

/-- C5: in every state a session reaches after `start()`, at most one read and
at most one write are outstanding and never both; and every step is the
completion of the single outstanding operation, in which the handler issues
either nothing (the session then has no operation left) or exactly one
operation, which becomes the single outstanding one. -/
theorem at_most_one_operation (s : HttpSession) (h : Reachable s) :
    s.outstanding.countP Op.isRead ≤ 1 ∧ s.outstanding.countP Op.isWrite ≤ 1 ∧
    s.outstanding.countP Op.isRead + s.outstanding.countP Op.isWrite ≤ 1 ∧
    ∀ e s', s.complete e = some s' →
      (∃ prev, s.outstanding = [prev]) ∧
      ((s'.issued = s.issued ∧ s'.outstanding = []) ∨
        ∃ op, s'.issued = s.issued ++ [op] ∧ s'.outstanding = [op]) := by
  have hinv := reachable_inv h
  refine ⟨?_, ?_, ?_, ?_⟩
  · rcases hinv.2.2 with h0 | hr | ⟨hw, _⟩
    · simp [h0]
    · simp [hr, Op.isRead]
    · simp [hw, Op.isRead]
  · rcases hinv.2.2 with h0 | hr | ⟨hw, _⟩
    · simp [h0]
    · simp [hr, Op.isWrite]
    · simp [hw, Op.isWrite]
  · rcases hinv.2.2 with h0 | hr | ⟨hw, _⟩
    · simp [h0]
    · simp [hr, Op.isRead, Op.isWrite]
    · simp [hw, Op.isRead, Op.isWrite]
  · intro e s' hstep
    rcases step_cases s s' e hinv hstep with
      ⟨ec, received, _, hr, hcase⟩ | ⟨ec, n, _, hw, hcase⟩
    · refine ⟨⟨_, hr⟩, ?_⟩
      rcases hcase with ⟨_, ho, hi, _⟩ | ⟨_, ho, hi, _⟩
      · exact Or.inr ⟨_, hi, ho⟩
      · exact Or.inl ⟨hi, ho⟩
    · refine ⟨⟨_, hw⟩, ?_⟩
      rcases hcase with ⟨_, ho, hi, _⟩ | ⟨_, ho, hi, _⟩
      · exact Or.inr ⟨_, hi, ho⟩
      · exact Or.inl ⟨hi, ho⟩

theorem at_most_one_operation_witness :
    Reachable started_session ∧
    started_session.outstanding.countP Op.isRead ≤ 1 ∧
    started_session.outstanding.countP Op.isWrite ≤ 1 ∧
    started_session.outstanding.countP Op.isRead
      + started_session.outstanding.countP Op.isWrite ≤ 1 ∧
    ∀ e s', started_session.complete e = some s' →
      (∃ prev, started_session.outstanding = [prev]) ∧
      ((s'.issued = started_session.issued ∧ s'.outstanding = []) ∨
        ∃ op, s'.issued = started_session.issued ++ [op] ∧ s'.outstanding = [op]) :=
  ⟨started_session_reachable, at_most_one_operation started_session started_session_reachable⟩

/-- C6: in every state a session reaches, the owner count equals the number of
outstanding operations (each handler holds one captured `self` and nobody else
owns the session), so it is at least 1 while an operation is outstanding; and
after a completion the count is 0 exactly when the handler issued nothing,
which is exactly when the completion was a read with an error or a write with
an error. -/
theorem use_count_tracks_operations (s : HttpSession) (h : Reachable s) :
    s.use_count = s.outstanding.length ∧
    (s.outstanding ≠ [] → 1 ≤ s.use_count) ∧
    ∀ e s', s.complete e = some s' →
      1 ≤ s.use_count ∧
      s'.use_count = s'.outstanding.length ∧
      (s'.use_count = 0 ↔ s'.issued = s.issued) ∧
      (s'.use_count = 0 ↔
        (∃ ec incoming, e = Completion.read ec incoming ∧ ec.ok = false) ∨
        (∃ ec n, e = Completion.write ec n ∧ ec.ok = false)) := by
  have hinv := reachable_inv h
  have hu := hinv.2.1
  refine ⟨hu, ?_, ?_⟩
  · intro hne
    rw [hu]
    exact List.length_pos.mpr hne
  · intro e s' hstep
    have hu' := (inv_step s s' e hinv hstep).2.1
    rcases step_cases s s' e hinv hstep with
      ⟨ec, received, he, hr, hcase⟩ | ⟨ec, n, he, hw, hcase⟩
    · rw [hr] at hu
      refine ⟨by rw [hu]; decide, hu', ?_⟩
      rcases hcase with ⟨hok, ho, hi, hc⟩ | ⟨hok, ho, hi, hc⟩
      · have h1 : s'.use_count ≠ 0 := by rw [hc, hu]; decide
        refine ⟨⟨fun h0 => absurd h0 h1, fun hx => ?_⟩, ⟨fun h0 => absurd h0 h1, ?_⟩⟩
        · rw [hi] at hx; exact absurd hx (append_singleton_ne _ _)
        · rintro (⟨ec1, r1, he1, hf⟩ | ⟨ec1, n1, he1, _⟩)
          · rw [he] at he1; injection he1 with e1 _
            rw [← e1, hok] at hf; exact absurd hf (by simp)
          · rw [he] at he1; exact absurd he1 (by simp)
      · have h0 : s'.use_count = 0 := by rw [hc, hu]; rfl
        exact ⟨⟨fun _ => hi, fun _ => h0⟩,
          ⟨fun _ => Or.inl ⟨ec, received, he, hok⟩, fun _ => h0⟩⟩
    · rw [hw] at hu
      refine ⟨by rw [hu]; decide, hu', ?_⟩
      rcases hcase with ⟨hok, ho, hi, hc⟩ | ⟨hok, ho, hi, hc⟩
      · have h1 : s'.use_count ≠ 0 := by rw [hc, hu]; decide
        refine ⟨⟨fun h0 => absurd h0 h1, fun hx => ?_⟩, ⟨fun h0 => absurd h0 h1, ?_⟩⟩
        · rw [hi] at hx; exact absurd hx (append_singleton_ne _ _)
        · rintro (⟨ec1, r1, he1, _⟩ | ⟨ec1, n1, he1, hf⟩)
          · rw [he] at he1; exact absurd he1 (by simp)
          · rw [he] at he1; injection he1 with e1 _
            rw [← e1, hok] at hf; exact absurd hf (by simp)
      · have h0 : s'.use_count = 0 := by rw [hc, hu]; rfl
        exact ⟨⟨fun _ => hi, fun _ => h0⟩,
          ⟨fun _ => Or.inr ⟨ec, n, he, hok⟩, fun _ => h0⟩⟩

theorem use_count_tracks_operations_witness :
    Reachable writing_session ∧
    writing_session.use_count = writing_session.outstanding.length ∧
    (writing_session.outstanding ≠ [] → 1 ≤ writing_session.use_count) ∧
    ∀ e s', writing_session.complete e = some s' →
      1 ≤ writing_session.use_count ∧
      s'.use_count = s'.outstanding.length ∧
      (s'.use_count = 0 ↔ s'.issued = writing_session.issued) ∧
      (s'.use_count = 0 ↔
        (∃ ec incoming, e = Completion.read ec incoming ∧ ec.ok = false) ∨
        (∃ ec n, e = Completion.write ec n ∧ ec.ok = false)) :=
  ⟨writing_session_reachable,
   use_count_tracks_operations writing_session writing_session_reachable⟩

/-! ## The accept loop -/

theorem ctor_ok (env : Startup) (address : String) (port : Nat) (threads : Int)
    (srv : HttpServer) (h : HttpServer.ctor env address port threads = Except.ok srv) :
    srv = { thread_count_ := threads, outstanding_accepts := 1, accepts_issued := 1,
            sessions := [], thread_pool_ := [] } := by
  unfold HttpServer.ctor at h
  cases h1 : env.make_address address <;> cases h2 : env.open_socket <;>
    cases h3 : env.set_reuse_address <;> cases h4 : env.bind address port <;>
    cases h5 : env.listen <;>
    simp [h1, h2, h3, h4, h5, throw_if, bind, Except.bind, pure, Except.pure,
      HttpServer.do_accept] at h
  exact h.symm

theorem accept_complete_eq (srv : HttpServer) (ec : error_code) (buf : List Char)
    (h : srv.outstanding_accepts = 1) :
    srv.accept_complete ec buf = some
      { thread_count_ := srv.thread_count_, outstanding_accepts := 1,
        accepts_issued := srv.accepts_issued + 1,
        sessions := if ec.ok then srv.sessions ++ [HttpSession.accepted buf] else srv.sessions,
        thread_pool_ := srv.thread_pool_ } := by
  unfold HttpServer.accept_complete HttpServer.accept_handler
  rw [h]
  cases ec.ok <;> simp [HttpServer.do_accept]

theorem server_inv {srv : HttpServer} (h : ServerReachable srv) : ServerInv srv := by
  induction h with
  | constructed env address port threads srv hc =>
    rw [ctor_ok env address port threads srv hc]
    exact ⟨rfl, rfl⟩
  | step ec buf _ hstep ih =>
    rw [accept_complete_eq _ ec buf ih.1] at hstep
    injection hstep with hstep
    subst hstep
    exact ⟨rfl, ih.2⟩

theorem listening_server_reachable : ServerReachable listening_server :=
  ServerReachable.constructed quiet_startup "0.0.0.0" 8080 4 listening_server rfl

/-- C7: a constructed server, and a server after any number of accept
completions, has exactly one accept outstanding; every accept completion,
with or without error, issues exactly one new accept, and it creates and
starts a session (which has its first read outstanding) exactly when the
accept reported no error. -/
theorem accept_loop (srv : HttpServer) (h : ServerReachable srv) :
    srv.outstanding_accepts = 1 ∧
    ∀ (ec : error_code) (buf : List Char),
      ∃ srv', srv.accept_complete ec buf = some srv' ∧
        ServerReachable srv' ∧
        srv'.outstanding_accepts = 1 ∧
        srv'.accepts_issued = srv.accepts_issued + 1 ∧
        (ec.ok = true → srv'.sessions = srv.sessions ++ [HttpSession.accepted buf] ∧
          (HttpSession.accepted buf).outstanding = [Op.read max_length]) ∧
        (ec.ok = false → srv'.sessions = srv.sessions) ∧
        (srv'.sessions.length = srv.sessions.length + 1 ↔ ec.ok = true) := by
  have hinv := server_inv h
  refine ⟨hinv.1, ?_⟩
  intro ec buf
  have hc := accept_complete_eq srv ec buf hinv.1
  refine ⟨_, hc, ServerReachable.step ec buf h hc, rfl, rfl, ?_, ?_, ?_⟩
  · intro hok
    refine ⟨by simp [hok], by rw [accepted_eq]⟩
  · intro hok
    simp [hok]
  · cases hok : ec.ok <;> simp

theorem accept_loop_witness :
    ServerReachable listening_server ∧
    listening_server.outstanding_accepts = 1 ∧
    ∀ (ec : error_code) (buf : List Char),
      ∃ srv', listening_server.accept_complete ec buf = some srv' ∧
        ServerReachable srv' ∧
        srv'.outstanding_accepts = 1 ∧
        srv'.accepts_issued = listening_server.accepts_issued + 1 ∧
        (ec.ok = true →
          srv'.sessions = listening_server.sessions ++ [HttpSession.accepted buf] ∧
          (HttpSession.accepted buf).outstanding = [Op.read max_length]) ∧
        (ec.ok = false → srv'.sessions = listening_server.sessions) ∧
        (srv'.sessions.length = listening_server.sessions.length + 1 ↔ ec.ok = true) :=
  ⟨listening_server_reachable, accept_loop listening_server listening_server_reachable⟩

/-! ## Start-up and the worker threads -/

/-- The threads of the rounds `i`, `i + 1`, ..., `i + k - 1`, as constructed. -/
theorem spawn_loop_spec (env : Startup) (n : Int) :
    ∀ (m : Nat) (i : Int) (pool : List std_thread), (n - i).toNat = m →
      ∃ k, k ≤ m ∧
        (spawn_loop env n i pool).1
          = pool ++ (List.range k).map
              (fun j : Nat => ({ index := i + j, joinable := true } : std_thread)) ∧
        (∀ j : Nat, j < k → env.thread_start (i + j) = none) ∧
        ((spawn_loop env n i pool).2 = none → k = m) ∧
        (∀ what, (spawn_loop env n i pool).2 = some what →
          k < m ∧ env.thread_start (i + k) = some what) := by
  intro m
  induction m with
  | zero =>
    intro i pool hm
    have hge : ¬ i < n := by omega
    refine ⟨0, le_refl _, ?_, ?_, ?_, ?_⟩
    · rw [spawn_loop, if_neg hge]; simp
    · intro j hj; omega
    · intro _; rfl
    · intro what hw
      rw [spawn_loop, if_neg hge] at hw
      exact absurd hw (by simp)
  | succ m ih =>
    intro i pool hm
    have hlt : i < n := by omega
    cases hs : env.thread_start i with
    | some what =>
      refine ⟨0, Nat.zero_le _, ?_, ?_, ?_, ?_⟩
      · rw [spawn_loop, if_pos hlt, hs]; simp
      · intro j hj; omega
      · intro hnone
        rw [spawn_loop, if_pos hlt, hs] at hnone
        exact absurd hnone (by simp)
      · intro w hw
        rw [spawn_loop, if_pos hlt, hs] at hw
        refine ⟨Nat.succ_pos _, ?_⟩
        simp only [Nat.cast_zero, add_zero]
        rw [hs]
        exact hw
    | none =>
      obtain ⟨k, hk, hpool, hstart, hnone, hsome⟩ :=
        ih (i + 1) (pool ++ [{ index := i, joinable := true }]) (by omega)
      have hunf : spawn_loop env n i pool
          = spawn_loop env n (i + 1) (pool ++ [{ index := i, joinable := true }]) := by
        rw [spawn_loop, if_pos hlt, hs]
      refine ⟨k + 1, Nat.succ_le_succ hk, ?_, ?_, ?_, ?_⟩
      · rw [hunf, hpool, List.range_succ_eq_map]
        simp only [List.map_cons, List.map_map, List.append_assoc, List.singleton_append,
          Nat.cast_zero, add_zero]
        congr 2
        apply List.map_congr_left
        intro j _
        simp only [Function.comp, Nat.cast_succ, std_thread.mk.injEq, and_true]
        ring
      · intro j hj
        cases j with
        | zero => simpa using hs
        | succ j =>
          have := hstart j (by omega)
          rw [← this]
          congr 1
          push_cast
          ring
      · intro h0
        rw [hunf] at h0
        rw [hnone h0]
      · intro w hw
        rw [hunf] at hw
        obtain ⟨h1, h2⟩ := hsome w hw
        refine ⟨Nat.succ_lt_succ h1, ?_⟩
        rw [← h2]
        congr 1
        push_cast
        ring

theorem join_loop_all (env : Startup) : ∀ (pool : List std_thread),
    (∀ t ∈ pool, t.joinable = true) → (∀ t ∈ pool, env.worker_exits t.index = true) →
    join_loop env pool
      = (pool.map (fun t => { t with joinable := false }),
         pool.map (fun t => Event.join t.index), none) := by
  intro pool
  induction pool with
  | nil => intro _ _; rfl
  | cons t rest ih =>
    intro hj he
    have h1 := hj t (List.mem_cons_self _ _)
    have h2 := he t (List.mem_cons_self _ _)
    have hrest := ih (fun u hu => hj u (List.mem_cons_of_mem _ hu))
      (fun u hu => he u (List.mem_cons_of_mem _ hu))
    simp only [join_loop, h1, h2, if_true, hrest, List.map_cons]

theorem join_loop_returned (env : Startup) : ∀ (pool : List std_thread),
    (∀ t ∈ pool, t.joinable = true) → (join_loop env pool).2.2 = none →
    ∀ t ∈ pool, env.worker_exits t.index = true := by
  intro pool
  induction pool with
  | nil => intro _ _ t ht; exact absurd ht (List.not_mem_nil t)
  | cons t rest ih =>
    intro hj hnone u hu
    have h1 := hj t (List.mem_cons_self _ _)
    cases he : env.worker_exits t.index with
    | false =>
      simp [join_loop, h1, he] at hnone
    | true =>
      simp only [join_loop, h1, he, if_true] at hnone
      rcases List.mem_cons.mp hu with rfl | hu'
      · exact he
      · exact ih (fun v hv => hj v (List.mem_cons_of_mem _ hv)) hnone u hu'

theorem join_loop_index (env : Startup) : ∀ (pool : List std_thread),
    (join_loop env pool).1.map std_thread.index = pool.map std_thread.index := by
  intro pool
  induction pool with
  | nil => rfl
  | cons t rest ih =>
    cases hj : t.joinable <;> cases he : env.worker_exits t.index <;>
      simp [join_loop, hj, he, ih]

theorem join_loop_events (env : Startup) : ∀ (pool : List std_thread),
    ∀ e ∈ (join_loop env pool).2.1, ∃ i, e = Event.join i := by
  intro pool
  induction pool with
  | nil => intro e he; simp [join_loop] at he
  | cons t rest ih =>
    intro e he
    cases hj : t.joinable <;> cases hx : env.worker_exits t.index <;>
      simp only [join_loop, hj, hx, if_true, if_false, Bool.false_eq_true,
        List.mem_cons, List.not_mem_nil] at he
    · exact ih e he
    · exact ih e he
    · rcases he with rfl | he
      · exact ⟨_, rfl⟩
      · exact ih e he

theorem spawn_all (env : Startup) (n : Int)
    (hstart : ∀ j : Nat, (j : Int) < n → env.thread_start j = none) :
    spawn_loop env n 0 []
      = ((List.range n.toNat).map
          (fun j : Nat => ({ index := (j : Int), joinable := true } : std_thread)), none) := by
  obtain ⟨k, hk, hpool, _, hnone, hsome⟩ := spawn_loop_spec env n n.toNat 0 [] (by simp)
  simp only [List.nil_append, zero_add] at hpool hsome
  cases h2 : (spawn_loop env n 0 []).2 with
  | none =>
    rw [hnone h2] at hpool
    exact Prod.ext hpool h2
  | some what =>
    obtain ⟨hlt, hthrow⟩ := hsome what h2
    rw [hstart k (by omega)] at hthrow
    exact absurd hthrow (by simp)

theorem spawn_none (env : Startup) (n : Int) (h : (spawn_loop env n 0 []).2 = none) :
    ∀ j : Nat, (j : Int) < n → env.thread_start j = none := by
  obtain ⟨k, _, _, hs, hnone, _⟩ := spawn_loop_spec env n n.toNat 0 [] (by simp)
  intro j hj
  have := hs j (by rw [hnone h]; omega)
  simpa using this

/-- What `run` does on a server with an empty pool when no thread construction
throws. -/
theorem run_started (env : Startup) (srv : HttpServer) (hpool : srv.thread_pool_ = [])
    (hstart : ∀ j : Nat, (j : Int) < srv.thread_count_ → env.thread_start j = none) :
    srv.run env =
      { server := { srv with thread_pool_ := (join_loop env
          ((List.range srv.thread_count_.toNat).map
            (fun j : Nat => ({ index := (j : Int), joinable := true } : std_thread)))).1 },
        trace := Event.stdout
            ("Server starting with " ++ toString srv.thread_count_ ++ " threads...")
          :: (List.range srv.thread_count_.toNat).map (fun j : Nat => Event.spawn j)
          ++ (join_loop env ((List.range srv.thread_count_.toNat).map
            (fun j : Nat => ({ index := (j : Int), joinable := true } : std_thread)))).2.1,
        ending := match (join_loop env ((List.range srv.thread_count_.toNat).map
            (fun j : Nat => ({ index := (j : Int), joinable := true } : std_thread)))).2.2 with
          | some i => RunEnd.blocked i
          | none => RunEnd.returned } := by
  unfold HttpServer.run
  simp only [hpool, spawn_all env srv.thread_count_ hstart, List.length_nil, List.drop_zero,
    List.map_map]
  rfl

theorem run_returned (env : Startup) (srv : HttpServer) (hpool : srv.thread_pool_ = [])
    (hret : (srv.run env).ending = RunEnd.returned) :
    (∀ j : Nat, (j : Int) < srv.thread_count_ → env.thread_start j = none) ∧
    (∀ j : Nat, (j : Int) < srv.thread_count_ → env.worker_exits j = true) := by
  have hnone : (spawn_loop env srv.thread_count_ 0 []).2 = none := by
    cases h2 : (spawn_loop env srv.thread_count_ 0 []).2 with
    | none => rfl
    | some what =>
      unfold HttpServer.run at hret
      simp only [hpool, h2] at hret
      exact absurd hret (by simp)
  have hstart := spawn_none env srv.thread_count_ hnone
  refine ⟨hstart, ?_⟩
  rw [run_started env srv hpool hstart] at hret
  simp only at hret
  have hj : (join_loop env ((List.range srv.thread_count_.toNat).map
      (fun j : Nat => ({ index := (j : Int), joinable := true } : std_thread)))).2.2 = none := by
    cases h3 : (join_loop env ((List.range srv.thread_count_.toNat).map
      (fun j : Nat => ({ index := (j : Int), joinable := true } : std_thread)))).2.2 with
    | none => rfl
    | some i => rw [h3] at hret; exact absurd hret (by simp)
  intro j hlt
  have := join_loop_returned env _ (by
    intro t ht
    obtain ⟨a, _, rfl⟩ := List.mem_map.mp ht
    rfl) hj { index := (j : Int), joinable := true } (by
    apply List.mem_map.mpr
    exact ⟨j, List.mem_range.mpr (by omega), rfl⟩)
  exact this

theorem main_error (env : Startup) (h : Nat) (what : String)
    (hfail : HttpServer.ctor env "0.0.0.0" 8080 (worker_threads h) = Except.error what) :
    main env h =
      { threads := worker_threads h, run_called := false,
        trace := [Event.stdout ("Listening on " ++ "0.0.0.0" ++ ":" ++ toString 8080),
                  Event.stderr ("Exception: " ++ what)],
        exit_status := some 0 } := by
  unfold main
  simp only [hfail]

theorem main_threads (env : Startup) (h : Nat) : (main env h).threads = worker_threads h := by
  unfold main
  simp only []
  split
  · split
    · rfl
    · rfl
    · split <;> rfl
  · rfl

theorem main_run_called (env : Startup) (h : Nat) (server : HttpServer)
    (hok : HttpServer.ctor env "0.0.0.0" 8080 (worker_threads h) = Except.ok server) :
    (main env h).run_called = true := by
  unfold main
  simp only [hok]
  split
  · rfl
  · rfl
  · split <;> rfl

theorem main_returned (env : Startup) (h : Nat) (server : HttpServer)
    (hok : HttpServer.ctor env "0.0.0.0" 8080 (worker_threads h) = Except.ok server)
    (hret : (server.run env).ending = RunEnd.returned) :
    main env h =
      { threads := worker_threads h, run_called := true,
        trace := Event.stdout ("Listening on " ++ "0.0.0.0" ++ ":" ++ toString 8080)
                  :: (server.run env).trace,
        exit_status := some 0 } := by
  unfold main
  simp only [hok, hret]

theorem main_terminated (env : Startup) (h : Nat) (server : HttpServer) (what : String)
    (hok : HttpServer.ctor env "0.0.0.0" 8080 (worker_threads h) = Except.ok server)
    (hthrew : (server.run env).ending = RunEnd.threw what)
    (hjoinable : (server.run env).server.thread_pool_.any (fun t => t.joinable) = true) :
    main env h =
      { threads := worker_threads h, run_called := true,
        trace := Event.stdout ("Listening on " ++ "0.0.0.0" ++ ":" ++ toString 8080)
                  :: (server.run env).trace ++ [Event.terminate],
        exit_status := none } := by
  unfold main
  simp only [hok, hthrew, hjoinable, if_true]

theorem listening_banner :
    Event.stdout ("Listening on " ++ "0.0.0.0" ++ ":" ++ toString 8080)
      = Event.stdout "Listening on 0.0.0.0:8080" := by
  have : toString 8080 = "8080" := by decide
  simp only [this]
  rfl

/-- C8 fails as stated: when `bind` throws because the port is taken, the
constructor fails, `main` reports it and does not call `run`, but the value it
returns is 0, not a nonzero status. -/
theorem main_returns_zero_on_bind_failure :
    HttpServer.ctor address_in_use "0.0.0.0" 8080 (worker_threads 4)
      = Except.error "bind: Address already in use" ∧
    (main address_in_use 4).run_called = false ∧
    (main address_in_use 4).exit_status = some 0 ∧
    ¬ (∃ status, (main address_in_use 4).exit_status = some status ∧ status ≠ 0) := by
  have hm := main_error address_in_use 4 "bind: Address already in use" rfl
  refine ⟨rfl, ?_, ?_, ?_⟩
  · rw [hm]
  · rw [hm]
  · rw [hm]
    rintro ⟨status, hs, hne⟩
    injection hs with hs
    exact hne hs.symm

/-- C8 amended: when the constructor of `HttpServer` throws at start-up,
`main` writes `Exception: ` followed by the message to the error stream, does
not call `run` (no thread is started) and returns 0. -/
theorem main_startup_failure (env : Startup) (h : Nat) (what : String)
    (hfail : HttpServer.ctor env "0.0.0.0" 8080 (main env h).threads = Except.error what) :
    (main env h).run_called = false ∧
    (main env h).trace =
      [Event.stdout "Listening on 0.0.0.0:8080", Event.stderr ("Exception: " ++ what)] ∧
    (∀ i, Event.spawn i ∉ (main env h).trace) ∧
    (main env h).exit_status = some 0 := by
  rw [main_threads] at hfail
  rw [main_error env h what hfail, listening_banner]
  refine ⟨rfl, rfl, ?_, rfl⟩
  intro i
  simp

theorem main_startup_failure_witness :
    HttpServer.ctor address_in_use "0.0.0.0" 8080 (main address_in_use 4).threads
      = Except.error "bind: Address already in use" ∧
    (main address_in_use 4).run_called = false ∧
    (main address_in_use 4).trace =
      [Event.stdout "Listening on 0.0.0.0:8080",
       Event.stderr ("Exception: " ++ "bind: Address already in use")] ∧
    (∀ i, Event.spawn i ∉ (main address_in_use 4).trace) ∧
    (main address_in_use 4).exit_status = some 0 :=
  ⟨rfl, main_startup_failure address_in_use 4 "bind: Address already in use" rfl⟩

theorem worker_threads_small (h : Nat) (hlt : h < 2 ^ 31) :
    worker_threads h = if h = 0 then 1 else (h : Int) := by
  have hmod : h % 2 ^ 32 = h := Nat.mod_eq_of_lt (by omega)
  unfold worker_threads to_int
  simp only [hmod, if_pos hlt]
  by_cases h0 : h = 0
  · simp [h0]
  · have : ¬ ((h : Int) = 0) := by exact_mod_cast h0
    simp [h0, this]

theorem thread_limit_spawn :
    spawn_loop thread_limit_startup 4 0 []
      = ([{ index := 0, joinable := true }, { index := 1, joinable := true }],
         some "Resource temporarily unavailable") := by
  have h0 : thread_limit_startup.thread_start 0 = none := rfl
  have h1 : thread_limit_startup.thread_start (0 + 1) = none := rfl
  have h2 : thread_limit_startup.thread_start (0 + 1 + 1)
      = some "Resource temporarily unavailable" := rfl
  rw [spawn_loop, if_pos (by decide), h0]
  simp only []
  rw [spawn_loop, if_pos (by decide), h1]
  simp only []
  rw [spawn_loop, if_pos (by decide), h2]
  rfl

theorem thread_limit_run :
    listening_server.run thread_limit_startup =
      { server := { listening_server with
          thread_pool_ := [{ index := 0, joinable := true }, { index := 1, joinable := true }] },
        trace := [Event.stdout "Server starting with 4 threads...",
                  Event.spawn 0, Event.spawn 1],
        ending := RunEnd.threw "Resource temporarily unavailable" } := by
  have hc : listening_server.thread_count_ = 4 := rfl
  have hp : listening_server.thread_pool_ = [] := rfl
  unfold HttpServer.run
  simp only [hc, hp, thread_limit_spawn, List.length_nil, List.drop_zero, List.map_cons,
    List.map_nil]
  rfl

/-- C9 fails as stated: with four hardware threads reported, on a machine that
refuses a third thread, the constructor succeeds and `main` passes 4, but
`run` starts only the threads 0 and 1; the construction of the third throws,
no thread is joined, `run` does not return, and `std::terminate` ends the
process. -/
theorem run_stops_at_thread_limit :
    (main thread_limit_startup 4).threads = 4 ∧
    HttpServer.ctor thread_limit_startup "0.0.0.0" 8080 4 = Except.ok listening_server ∧
    (listening_server.run thread_limit_startup).ending
      = RunEnd.threw "Resource temporarily unavailable" ∧
    (listening_server.run thread_limit_startup).trace
      = [Event.stdout "Server starting with 4 threads...", Event.spawn 0, Event.spawn 1] ∧
    (listening_server.run thread_limit_startup).server.thread_pool_.length = 2 ∧
    (main thread_limit_startup 4).trace
      = [Event.stdout "Listening on 0.0.0.0:8080",
         Event.stdout "Server starting with 4 threads...",
         Event.spawn 0, Event.spawn 1, Event.terminate] ∧
    (main thread_limit_startup 4).exit_status = none := by
  have hm := main_terminated thread_limit_startup 4 listening_server
    "Resource temporarily unavailable" rfl (by rw [thread_limit_run])
    (by rw [thread_limit_run]; rfl)
  rw [thread_limit_run, listening_banner] at hm
  refine ⟨?_, rfl, ?_, ?_, ?_, ?_, ?_⟩
  · rw [hm]; rfl
  · rw [thread_limit_run]
  · rw [thread_limit_run]
  · rw [thread_limit_run]; rfl
  · rw [hm]; rfl
  · rw [hm]

/-- C9 amended: for every value h below 2^31 returned by
`hardware_concurrency`, the worker count N that `main` passes to `HttpServer`
is h when h is not 0 and 1 when h is 0, so N is at least 1. When the server is
constructed `run` is called, and when no thread construction throws it starts
exactly N threads, numbered 0 to N-1, before any join. When `run` returns, it
has joined every one of the N threads after starting them all, every worker
had left `io_context_.run()`, and `main` returns 0. -/
theorem worker_count (env : Startup) (h : Nat) (hlt : h < 2 ^ 31) :
    (main env h).threads = (if h = 0 then 1 else (h : Int)) ∧
    1 ≤ (main env h).threads ∧
    ∀ srv, HttpServer.ctor env "0.0.0.0" 8080 (main env h).threads = Except.ok srv →
      srv.thread_count_ = (main env h).threads ∧
      (main env h).run_called = true ∧
      ((∀ j : Nat, (j : Int) < srv.thread_count_ → env.thread_start j = none) →
        (∃ joins, (srv.run env).trace =
            Event.stdout
                ("Server starting with " ++ toString srv.thread_count_ ++ " threads...")
              :: (List.range srv.thread_count_.toNat).map (fun j : Nat => Event.spawn j)
              ++ joins ∧
            ∀ e ∈ joins, ∃ i, e = Event.join i) ∧
        (srv.run env).server.thread_pool_.map std_thread.index
          = (List.range srv.thread_count_.toNat).map (fun j : Nat => (j : Int)) ∧
        ((srv.run env).server.thread_pool_.length : Int) = srv.thread_count_) ∧
      ((srv.run env).ending = RunEnd.returned →
        (srv.run env).trace =
          Event.stdout
              ("Server starting with " ++ toString srv.thread_count_ ++ " threads...")
            :: (List.range srv.thread_count_.toNat).map (fun j : Nat => Event.spawn j)
            ++ (List.range srv.thread_count_.toNat).map (fun j : Nat => Event.join j) ∧
        (∀ t ∈ (srv.run env).server.thread_pool_, t.joinable = false) ∧
        (∀ j : Nat, (j : Int) < srv.thread_count_ → env.worker_exits j = true) ∧
        (main env h).trace
          = Event.stdout "Listening on 0.0.0.0:8080" :: (srv.run env).trace ∧
        (main env h).exit_status = some 0) := by
  have hw := worker_threads_small h hlt
  have hpos : 1 ≤ worker_threads h := by
    rw [hw]
    by_cases h0 : h = 0
    · simp [h0]
    · rw [if_neg h0]
      have : 1 ≤ h := by omega
      exact_mod_cast this
  rw [main_threads]
  refine ⟨hw, hpos, ?_⟩
  intro srv hsrv
  have hs := ctor_ok _ _ _ _ srv hsrv
  have hcount : srv.thread_count_ = worker_threads h := by rw [hs]
  have hpool : srv.thread_pool_ = [] := by rw [hs]
  refine ⟨hcount, main_run_called env h srv hsrv, ?_, ?_⟩
  · intro hstart
    have hr := run_started env srv hpool hstart
    have hidx : (srv.run env).server.thread_pool_.map std_thread.index
        = (List.range srv.thread_count_.toNat).map (fun j : Nat => (j : Int)) := by
      rw [hr]
      simp only [join_loop_index, List.map_map]
      rfl
    refine ⟨⟨_, by rw [hr], join_loop_events env _⟩, hidx, ?_⟩
    have hlen := congrArg List.length hidx
    simp only [List.length_map, List.length_range] at hlen
    rw [hlen]
    omega
  · intro hret
    obtain ⟨hstart, hexit⟩ := run_returned env srv hpool hret
    have hr := run_started env srv hpool hstart
    have hj := join_loop_all env ((List.range srv.thread_count_.toNat).map
        (fun j : Nat => ({ index := (j : Int), joinable := true } : std_thread)))
      (by
        intro t ht
        obtain ⟨a, _, rfl⟩ := List.mem_map.mp ht
        rfl)
      (by
        intro t ht
        obtain ⟨a, ha, rfl⟩ := List.mem_map.mp ht
        exact hexit a (by have := List.mem_range.mp ha; omega))
    rw [hj] at hr
    have hm := main_returned env h srv hsrv hret
    rw [listening_banner] at hm
    refine ⟨?_, ?_, hexit, by rw [hm], by rw [hm]⟩
    · rw [hr]
      simp only [List.map_map]
      rfl
    · rw [hr]
      intro t ht
      simp only [List.map_map, List.mem_map] at ht
      obtain ⟨a, _, rfl⟩ := ht
      rfl

theorem worker_count_witness :
    4 < 2 ^ 31 ∧
    (main stopping_startup 4).threads = (if 4 = 0 then 1 else ((4 : Nat) : Int)) ∧
    1 ≤ (main stopping_startup 4).threads ∧
    ∀ srv, HttpServer.ctor stopping_startup "0.0.0.0" 8080 (main stopping_startup 4).threads
        = Except.ok srv →
      srv.thread_count_ = (main stopping_startup 4).threads ∧
      (main stopping_startup 4).run_called = true ∧
      ((∀ j : Nat, (j : Int) < srv.thread_count_ → stopping_startup.thread_start j = none) →
        (∃ joins, (srv.run stopping_startup).trace =
            Event.stdout
                ("Server starting with " ++ toString srv.thread_count_ ++ " threads...")
              :: (List.range srv.thread_count_.toNat).map (fun j : Nat => Event.spawn j)
              ++ joins ∧
            ∀ e ∈ joins, ∃ i, e = Event.join i) ∧
        (srv.run stopping_startup).server.thread_pool_.map std_thread.index
          = (List.range srv.thread_count_.toNat).map (fun j : Nat => (j : Int)) ∧
        ((srv.run stopping_startup).server.thread_pool_.length : Int) = srv.thread_count_) ∧
      ((srv.run stopping_startup).ending = RunEnd.returned →
        (srv.run stopping_startup).trace =
          Event.stdout
              ("Server starting with " ++ toString srv.thread_count_ ++ " threads...")
            :: (List.range srv.thread_count_.toNat).map (fun j : Nat => Event.spawn j)
            ++ (List.range srv.thread_count_.toNat).map (fun j : Nat => Event.join j) ∧
        (∀ t ∈ (srv.run stopping_startup).server.thread_pool_, t.joinable = false) ∧
        (∀ j : Nat, (j : Int) < srv.thread_count_ → stopping_startup.worker_exits j = true) ∧
        (main stopping_startup 4).trace
          = Event.stdout "Listening on 0.0.0.0:8080" :: (srv.run stopping_startup).trace ∧
        (main stopping_startup 4).exit_status = some 0) :=
  ⟨by decide, worker_count stopping_startup 4 (by decide)⟩

/-- On a machine where no worker leaves `io_context_.run()`, `run` starts its
four threads and hangs in the first `join()`. -/
theorem listening_run_blocks :
    (listening_server.run quiet_startup).ending = RunEnd.blocked 0 ∧
    (listening_server.run quiet_startup).trace
      = [Event.stdout "Server starting with 4 threads...",
         Event.spawn 0, Event.spawn 1, Event.spawn 2, Event.spawn 3] := by
  rw [run_started quiet_startup listening_server rfl (fun _ _ => rfl)]
  exact ⟨rfl, rfl⟩

/-- On a machine where the workers leave `io_context_.run()`, `run` starts its
four threads, joins them in order and returns. -/
theorem listening_run_returns :
    (listening_server.run stopping_startup).ending = RunEnd.returned ∧
    (listening_server.run stopping_startup).trace
      = [Event.stdout "Server starting with 4 threads...",
         Event.spawn 0, Event.spawn 1, Event.spawn 2, Event.spawn 3,
         Event.join 0, Event.join 1, Event.join 2, Event.join 3] := by
  rw [run_started stopping_startup listening_server rfl (fun _ _ => rfl)]
  exact ⟨rfl, rfl⟩

end AsyncHttp
